import Mathlib

/-!
Shallow embedding of the graph-state reconciliation core of the
speech-to-whiteboard repository, together with theorems settling the
frozen claims about it.

The embedded source files are:
* `client/src/lib/graphLayout.ts` — graph model, `applyAction`,
  `extractGraphFromSnapshot`, layout edge handling, position hints,
  `serializeGraphState`;
* `server/src/main/kotlin/com/voiceboard/features/ai/GraphStateManager.kt`
  — the server-side `GraphState.syncFrom` deserializer;
* `client/src/pages/Whiteboard.tsx` — the post-batch orphan-edge cleanup.

Modelling conventions:
* A JavaScript `Map` (insertion-ordered, unique keys) is modelled as an
  association list `List (String × α)`; `Map.set` updates in place when the
  key exists (keeping its position) and appends otherwise, exactly like the
  JS semantics.  Deleting the entry currently visited while iterating a JS
  `Map` behaves like `List.filter`, which is how the deletion loops of the
  source are embedded.
* Optional TS fields become `Option`; JS string truthiness (`undefined`
  and `""` are falsy) is `strTruthy`.
* JS numbers that the embedded code only adds, subtracts, halves and
  compares are modelled as `ℚ`.
* `String.prototype.replace` with a string pattern replaces the first
  occurrence only; `jsReplaceOnce` mirrors that.
-/

namespace VoiceBoard

/-- The closed `NodeType` enumeration of `client/src/types/sketch.ts`. -/
inductive NodeType where
  | database | server | client | storage | network
  | box | circle | cloud | diamond | hexagon | person | process_ | data
  | frame | text | note
deriving DecidableEq, Repr

/-- `GraphNode` of `graphLayout.ts` (client, lines 7–17). -/
structure GraphNode where
  id : String
  label : String
  description : String
  type : NodeType
  parentId : Option String := none
  color : Option String := none
  position : Option String := none
  relativeTo : Option String := none
  opacity : Option ℚ := none
deriving DecidableEq, Repr

/-- `GraphEdge` of `graphLayout.ts` (client, lines 19–24). -/
structure GraphEdge where
  id : String
  sourceId : String
  targetId : String
  bidirectional : Option Bool := none
deriving DecidableEq, Repr

/-- `GraphState` of `graphLayout.ts` (lines 26–29): insertion-ordered maps
from node id to node and edge id to edge. -/
structure GraphState where
  nodes : List (String × GraphNode) := []
  edges : List (String × GraphEdge) := []
deriving DecidableEq, Repr

/-- `createGraphState` (graphLayout.ts lines 74–79). -/
def createGraphState : GraphState := {}

/-- JS `Map.prototype.set` (and Kotlin `LinkedHashMap.put`): replace the
entry in place if the key exists — keeping its position — and append
otherwise.  Keys of a JS `Map` are unique, so replacing the first entry
with the key is exact. -/
def mapSet {α : Type} (m : List (String × α)) (k : String) (v : α) :
    List (String × α) :=
  match m with
  | [] => [(k, v)]
  | p :: rest => if p.1 == k then (k, v) :: rest else p :: mapSet rest k v

/-- JS `Map.prototype.delete`. -/
def mapDelete {α : Type} (m : List (String × α)) (k : String) :
    List (String × α) :=
  m.filter (fun p => p.1 != k)

/-- JS `Map.prototype.get`. -/
def mapGet {α : Type} (m : List (String × α)) (k : String) : Option α :=
  (m.find? (fun p => p.1 == k)).map Prod.snd

/-- JS `Map.prototype.has`. -/
def mapHas {α : Type} (m : List (String × α)) (k : String) : Bool :=
  m.any (fun p => p.1 == k)

/-- JS truthiness of an optional string: `undefined` and `""` are falsy. -/
def strTruthy : Option String → Bool
  | some s => s != ""
  | none => false

/-- `SketchAction` of `client/src/types/sketch.ts` (lines 28–42).  The
`action` discriminator is a plain string because the value arrives from an
untrusted upstream language model: the TS `switch` has a `default` branch
for unrecognized values. -/
structure SketchAction where
  action : String
  id : Option String := none
  label : Option String := none
  description : Option String := none
  type : Option NodeType := none
  source_id : Option String := none
  target_id : Option String := none
  bidirectional : Option Bool := none
  parent_id : Option String := none
  color : Option String := none
  position : Option String := none
  relative_to : Option String := none
  opacity : Option ℚ := none
deriving DecidableEq, Repr

/-- The `delete_edge` source/target search of `graphLayout.ts` lines
264–270: delete the first edge (in map iteration order) whose `sourceId`
and `targetId` both match; `none` when no edge matches. -/
def deleteFirstEdgeMatch (es : List (String × GraphEdge)) (src tgt : String) :
    Option (List (String × GraphEdge)) :=
  match es with
  | [] => none
  | e :: rest =>
    if e.2.sourceId == src && e.2.targetId == tgt then some rest
    else (deleteFirstEdgeMatch rest src tgt).map (fun l => e :: l)

/-- `applyAction` of `graphLayout.ts` (lines 189–278).  The TS function
mutates `state` and returns a boolean; the embedding returns the pair
(result, new state). -/
def applyAction (state : GraphState) (action : SketchAction) :
    Bool × GraphState :=
  if action.action == "create_node" then
    if strTruthy action.id && strTruthy action.label && action.type.isSome then
      let node : GraphNode :=
        { id := action.id.getD ("")
          label := action.label.getD ("")
          description := action.description.getD ("")
          type := action.type.getD NodeType.box
          parentId := action.parent_id
          color := action.color
          position := action.position
          relativeTo := action.relative_to
          opacity := action.opacity }
      (true, { state with nodes := mapSet state.nodes (action.id.getD ("")) node })
    else (false, state)
  else if action.action == "update_node" then
    if strTruthy action.id && mapHas state.nodes (action.id.getD ("")) then
      match mapGet state.nodes (action.id.getD ("")) with
      | some existing =>
        let node : GraphNode :=
          { id := action.id.getD ("")
            label := if strTruthy action.label then action.label.getD ("")
                     else existing.label
            description := action.description.getD existing.description
            type := action.type.getD existing.type
            parentId := if action.parent_id.isSome then action.parent_id
                        else existing.parentId
            color := if action.color.isSome then action.color
                     else existing.color
            position := if action.position.isSome then action.position
                        else existing.position
            relativeTo := if action.relative_to.isSome then action.relative_to
                          else existing.relativeTo
            opacity := if action.opacity.isSome then action.opacity
                       else existing.opacity }
        (true, { state with nodes := mapSet state.nodes (action.id.getD ("")) node })
      | none => (false, state)
    else (false, state)
  else if action.action == "delete_node" then
    if strTruthy action.id then
      let id := action.id.getD ("")
      let nodes1 := mapDelete state.nodes id
      let edges1 := state.edges.filter
        (fun p => !(p.2.sourceId == id || p.2.targetId == id))
      let nodes2 := nodes1.filter (fun p => !(p.2.parentId == some id))
      (true, { nodes := nodes2, edges := edges1 })
    else (false, state)
  else if action.action == "create_edge" then
    if strTruthy action.source_id && strTruthy action.target_id then
      let src := action.source_id.getD ("")
      let tgt := action.target_id.getD ("")
      let edgeId := if strTruthy action.id then action.id.getD ("")
                    else src ++ "->" ++ tgt
      let edge : GraphEdge :=
        { id := edgeId
          sourceId := src
          targetId := tgt
          bidirectional := some (action.bidirectional.getD false) }
      (true, { state with edges := mapSet state.edges edgeId edge })
    else (false, state)
  else if action.action == "delete_edge" then
    if strTruthy action.id then
      (true, { state with edges := mapDelete state.edges (action.id.getD ("")) })
    else if strTruthy action.source_id && strTruthy action.target_id then
      match deleteFirstEdgeMatch state.edges (action.source_id.getD (""))
          (action.target_id.getD ("")) with
      | some es => (true, { state with edges := es })
      | none => (false, state)
    else (false, state)
  else (false, state)

/-- The orphaned-edge cleanup pass that appears verbatim both at the end of
`extractGraphFromSnapshot` (graphLayout.ts lines 172–184) and after the
action batch in the sketch-commands effect of `Whiteboard.tsx` (lines
489–499): collect every edge one of whose endpoints is missing from the
node map, then delete the collected edges. -/
def cleanupOrphanEdges (state : GraphState) : GraphState :=
  let kept := state.edges.filter
    (fun p => mapHas state.nodes p.2.sourceId && mapHas state.nodes p.2.targetId)
  { state with edges := kept }

/-- Remove the first occurrence of `pat` from `s` (char-list form). -/
def removeFirstOcc (s pat : List Char) : List Char :=
  match s with
  | [] => []
  | c :: rest =>
    if pat.isPrefixOf (c :: rest) then (c :: rest).drop pat.length
    else c :: removeFirstOcc rest pat

/-- JS `String.prototype.replace` with a plain-string pattern and empty
replacement: removes only the first occurrence. -/
def jsReplaceOnce (s pat : String) : String := ⟨removeFirstOcc s.data pat.data⟩

/-- JS `String.prototype.startsWith`. -/
def jsStartsWith (s p : String) : Bool := p.data.isPrefixOf s.data

/-- JS `String.prototype.toLowerCase` (ASCII, which is all the embedded
code compares against). -/
def jsToLower (s : String) : String := ⟨s.data.map Char.toLower⟩

/-- JS `o || d` for an optional string `o`: `d` when `o` is `undefined` or
empty. -/
def jsOrStr (o : Option String) (d : String) : String :=
  match o with
  | some s => if s != "" then s else d
  | none => d

/-- The `props` bag of a tldraw store record, restricted to the keys the
embedded code reads (`extractGraphFromSnapshot`, graphLayout.ts 101–170). -/
structure TLProps where
  label : Option String := none
  description : Option String := none
  nodeType : Option NodeType := none
  color : Option String := none
  terminal : Option String := none
  arrowheadStart : Option String := none
  arrowheadEnd : Option String := none
deriving DecidableEq, Repr

/-- A tldraw store record as read by `extractGraphFromSnapshot`
(the `TLRecord` interface of graphLayout.ts lines 82–90, plus the
`opacity` field read at line 127).  A snapshot is the list
`Object.values(snapshot.store)`. -/
structure TLRecord where
  typeName : String
  id : String
  type : Option String := none
  parentId : Option String := none
  props : TLProps := {}
  fromId : Option String := none
  toId : Option String := none
  opacity : Option ℚ := none
deriving DecidableEq, Repr

/-- The parent-resolution step of `extractGraphFromSnapshot`
(graphLayout.ts lines 109–118): keep a `parentId` only when the visual
parent is not a page and the parent record found in the snapshot is a
`frame`-typed tldraw shape. -/
def extractedParentId (shapes : List TLRecord) (shape : TLRecord) :
    Option String :=
  match shape.parentId with
  | some p =>
    if p != "" && !(jsStartsWith p ("page:")) then
      let parentIdStr := jsReplaceOnce p ("shape:")
      match shapes.find? (fun q => q.id == p) with
      | some parentShape =>
        if parentShape.type == some ("frame") then some parentIdStr else none
      | none => none
    else none
  | none => none

/-- The `GraphNode` built for one `diagram-node` shape record
(graphLayout.ts lines 120–128). -/
def extractedNode (shapes : List TLRecord) (shape : TLRecord) : GraphNode :=
  { id := jsReplaceOnce shape.id ("shape:")
    label := jsOrStr shape.props.label ("Node")
    description := jsOrStr shape.props.description ("")
    type := shape.props.nodeType.getD NodeType.box
    parentId := extractedParentId shapes shape
    color := shape.props.color
    opacity := shape.opacity }

/-- The node-extraction loop of `extractGraphFromSnapshot`
(graphLayout.ts lines 104–130). -/
def extractedNodes (shapes : List TLRecord) : List (String × GraphNode) :=
  shapes.foldl
    (fun acc shape =>
      if shape.type == some ("diagram-node") then
        mapSet acc (jsReplaceOnce shape.id ("shape:")) (extractedNode shapes shape)
      else acc) []

/-- One iteration of the arrow/binding extraction loop of
`extractGraphFromSnapshot` (graphLayout.ts lines 139–170): resolve the two
endpoint bindings of `arrow` among the binding records of `records`, and
materialize an edge only when both the `start` and the `end` binding exist
and carry a bound (truthy) shape id.  The binding list is recomputed here
from `records` instead of being computed once before the loop as in the
source; the loop body is pure, so the two are extensionally identical. -/
def arrowToEdge (records : List TLRecord) (arrow : TLRecord) :
    Option (String × GraphEdge) :=
  let edgeId := jsReplaceOnce (jsReplaceOnce arrow.id ("shape:arrow_")) ("shape:")
  let bindings := records.filter
    (fun r => r.typeName == "binding" && r.type == some ("arrow"))
  let arrowBindings := bindings.filter (fun b => b.fromId == some arrow.id)
  let startBinding := arrowBindings.find?
    (fun b => b.props.terminal == some ("start"))
  let endBinding := arrowBindings.find?
    (fun b => b.props.terminal == some ("end"))
  match startBinding, endBinding with
  | some sb, some eb =>
    if strTruthy sb.toId && strTruthy eb.toId then
      some (edgeId,
        { id := edgeId
          sourceId := jsReplaceOnce (sb.toId.getD ("")) ("shape:")
          targetId := jsReplaceOnce (eb.toId.getD ("")) ("shape:")
          bidirectional := some (arrow.props.arrowheadStart == some ("arrow") &&
            arrow.props.arrowheadEnd == some ("arrow")) })
    else none
  | _, _ => none

/-- The arrow/binding extraction loop of `extractGraphFromSnapshot`
(graphLayout.ts lines 132–170). -/
def extractedEdges (records shapes : List TLRecord) : List (String × GraphEdge) :=
  (shapes.filter (fun s => s.type == some ("arrow"))).foldl
    (fun acc arrow =>
      match arrowToEdge records arrow with
      | some (k, e) => mapSet acc k e
      | none => acc) []

/-- `extractGraphFromSnapshot` (graphLayout.ts lines 94–187) on the record
list `Object.values(snapshot.store)`. -/
def extractGraphFromSnapshot (records : List TLRecord) : GraphState :=
  let shapes := records.filter (fun r => r.typeName == "shape")
  cleanupOrphanEdges
    { nodes := extractedNodes shapes, edges := extractedEdges records shapes }

/-- `SerializedGraphNode` of `client/src/types/sketch.ts` (lines 49–59):
the node wire format. -/
structure SerializedGraphNode where
  id : String
  label : String
  description : String
  type : NodeType
  parentId : Option String := none
  color : Option String := none
  position : Option String := none
  relativeTo : Option String := none
  opacity : Option ℚ := none
deriving DecidableEq, Repr

/-- `SerializedGraphEdge` of `client/src/types/sketch.ts` (lines 61–66). -/
structure SerializedGraphEdge where
  id : String
  sourceId : String
  targetId : String
  bidirectional : Option Bool := none
deriving DecidableEq, Repr

/-- `GraphSyncMessage` of `client/src/types/sketch.ts` (lines 68–72). -/
structure GraphSyncMessage where
  type : String
  nodes : List SerializedGraphNode
  edges : List SerializedGraphEdge
deriving DecidableEq, Repr

/-- `serializeGraphState` (graphLayout.ts lines 575–596). -/
def serializeGraphState (state : GraphState) : GraphSyncMessage :=
  { type := "graph_sync"
    nodes := state.nodes.map (fun p =>
      { id := p.2.id
        label := p.2.label
        description := p.2.description
        type := p.2.type
        parentId := p.2.parentId
        color := p.2.color
        position := p.2.position
        relativeTo := p.2.relativeTo
        opacity := p.2.opacity })
    edges := state.edges.map (fun p =>
      { id := p.2.id
        sourceId := p.2.sourceId
        targetId := p.2.targetId
        bidirectional := p.2.bidirectional }) }

/-- Server-side `GraphNode` (GraphStateManager.kt lines 5–14).  Note: it
has no `opacity` field. -/
structure ServerGraphNode where
  id : String
  label : String
  description : String
  type : NodeType
  parentId : Option String := none
  color : Option String := none
  position : Option String := none
  relativeTo : Option String := none
deriving DecidableEq, Repr

/-- Server-side `GraphEdge` (GraphStateManager.kt lines 16–20).  Note: it
has no `id` field. -/
structure ServerGraphEdge where
  sourceId : String
  targetId : String
  bidirectional : Bool := false
deriving DecidableEq, Repr

/-- Server-side `GraphState` (GraphStateManager.kt lines 22–26): a
`LinkedHashMap` of nodes and a `LinkedHashSet` of edges (the conversation
history is irrelevant to the embedded claims). -/
structure ServerGraphState where
  nodes : List (String × ServerGraphNode) := []
  edges : List ServerGraphEdge := []
deriving DecidableEq, Repr

/-- Kotlin `MutableSet.add` on a `LinkedHashSet` of data-class values:
append only when no equal element is present. -/
def setAddEdge (es : List ServerGraphEdge) (e : ServerGraphEdge) :
    List ServerGraphEdge :=
  if es.contains e then es else es ++ [e]

/-- The node record built by `GraphState.syncFrom`
(GraphStateManager.kt lines 49–60): every wire field except `opacity`,
which the server model does not carry. -/
def serverNodeOfWire (n : SerializedGraphNode) : ServerGraphNode :=
  { id := n.id
    label := n.label
    description := n.description
    type := n.type
    parentId := n.parentId
    color := n.color
    position := n.position
    relativeTo := n.relativeTo }

/-- The edge record built by `GraphState.syncFrom`
(GraphStateManager.kt lines 62–68): endpoints and direction only, the wire
`id` is dropped, absent `bidirectional` defaults to `false`. -/
def serverEdgeOfWire (e : SerializedGraphEdge) : ServerGraphEdge :=
  { sourceId := e.sourceId
    targetId := e.targetId
    bidirectional := e.bidirectional.getD false }

/-- `GraphState.syncFrom` (GraphStateManager.kt lines 43–69): clears the
node map and edge set, then repopulates both from the sync message.
Because the target state is cleared first, the result is a function of the
message alone. -/
def syncFrom (msg : GraphSyncMessage) : ServerGraphState :=
  { nodes := msg.nodes.foldl (fun acc n => mapSet acc n.id (serverNodeOfWire n)) []
    edges := msg.edges.foldl (fun acc e => setAddEdge acc (serverEdgeOfWire e)) [] }

/-- An edge in the hierarchical input handed to the ELK layout engine
(graphLayout.ts lines 338–342). -/
structure ElkEdge where
  id : String
  sources : List String
  targets : List String
deriving DecidableEq, Repr

/-- The frame ids computed by `layoutGraph` (graphLayout.ts lines 282,
331). -/
def layoutGraphFrameIds (state : GraphState) : List String :=
  ((state.nodes.map Prod.snd).filter (fun n => n.type == NodeType.frame)).map
    (fun f => f.id)

/-- The edge list handed to the external layout engine by `layoutGraph`
(graphLayout.ts lines 333–342): every edge whose source or target is a
frame-typed node is filtered out before the ELK graph is built. -/
def layoutGraphElkEdges (state : GraphState) : List ElkEdge :=
  let frameIds := layoutGraphFrameIds state
  let kept := (state.edges.map Prod.snd).filter
    (fun e => !(frameIds.contains e.sourceId) && !(frameIds.contains e.targetId))
  kept.map (fun e => { id := e.id, sources := [e.sourceId], targets := [e.targetId] })

/-- An edge of the `LayoutResult` (graphLayout.ts lines 47–52). -/
structure LayoutEdge where
  id : String
  sourceId : String
  targetId : String
  bidirectional : Option Bool := none
deriving DecidableEq, Repr

/-- The `edges` list of the `LayoutResult` returned by `layoutGraph`
(graphLayout.ts lines 411–416): built from `state.edges` directly, with no
frame filtering. -/
def layoutGraphResultEdges (state : GraphState) : List LayoutEdge :=
  (state.edges.map Prod.snd).map
    (fun e =>
      { id := e.id
        sourceId := e.sourceId
        targetId := e.targetId
        bidirectional := e.bidirectional })

/-- A laid-out node (the `LayoutNode` interface, graphLayout.ts lines
31–45). -/
structure LayoutNode where
  id : String
  label : String
  description : String
  type : NodeType
  x : ℚ
  y : ℚ
  width : ℚ
  height : ℚ
  parentId : Option String := none
  color : Option String := none
  position : Option String := none
  relativeTo : Option String := none
  opacity : Option ℚ := none
deriving DecidableEq, Repr

/-- A width/height pair (the `dims` arguments of graphLayout.ts). -/
structure Dims where
  width : ℚ
  height : ℚ
deriving DecidableEq, Repr

/-- Node dimension constants (graphLayout.ts lines 60–65). -/
def NODE_WIDTH : ℚ := 200

def NODE_HEIGHT : ℚ := 100

def TEXT_WIDTH : ℚ := 300

def TEXT_HEIGHT : ℚ := 100

def NOTE_WIDTH : ℚ := 200

def NOTE_HEIGHT : ℚ := 150

/-- `getNodeDimensions` (graphLayout.ts lines 68–72). -/
def getNodeDimensions (type : NodeType) : Dims :=
  if type == NodeType.text then ⟨TEXT_WIDTH, TEXT_HEIGHT⟩
  else if type == NodeType.note then ⟨NOTE_WIDTH, NOTE_HEIGHT⟩
  else ⟨NODE_WIDTH, NODE_HEIGHT⟩

/-- The fixed gap `GAP` of `calculatePosition` (graphLayout.ts line 427). -/
def GAP : ℚ := 50

/-- `BoundingBox` (graphLayout.ts lines 442–449). -/
structure BoundingBox where
  minX : ℚ
  maxX : ℚ
  minY : ℚ
  maxY : ℚ
  centerX : ℚ
  centerY : ℚ
deriving DecidableEq, Repr

/-- `getBoundingBoxForNode` (graphLayout.ts lines 452–461). -/
def getBoundingBoxForNode (node : LayoutNode) : BoundingBox :=
  { minX := node.x
    maxX := node.x + node.width
    minY := node.y
    maxY := node.y + node.height
    centerX := node.x + node.width / 2
    centerY := node.y + node.height / 2 }

/-- JS `Math.min(...xs)` on a list known to be nonempty (the only caller,
`calculateCanvasPosition`, guards the empty case; JS would give `+∞`,
which the fallback value 0 here never reaches). -/
def listMin : List ℚ → ℚ
  | [] => 0
  | x :: xs => xs.foldl min x

/-- JS `Math.max(...xs)` on a list known to be nonempty. -/
def listMax : List ℚ → ℚ
  | [] => 0
  | x :: xs => xs.foldl max x

/-- `getBoundingBoxForNodes` (graphLayout.ts lines 464–478). -/
def getBoundingBoxForNodes (nodes : List LayoutNode) : BoundingBox :=
  let minX := listMin (nodes.map (fun n => n.x))
  let maxX := listMax (nodes.map (fun n => n.x + n.width))
  let minY := listMin (nodes.map (fun n => n.y))
  let maxY := listMax (nodes.map (fun n => n.y + n.height))
  { minX := minX
    maxX := maxX
    minY := minY
    maxY := maxY
    centerX := (minX + maxX) / 2
    centerY := (minY + maxY) / 2 }

/-- `calculatePositionRelativeTo` (graphLayout.ts lines 481–537): the
keyword-to-offset table, on the lower-cased keyword, with the `right` rule
as the default branch. -/
def calculatePositionRelativeTo (position : String) (bounds : BoundingBox)
    (dims : Dims) (gap : ℚ) : ℚ × ℚ :=
  let p := jsToLower position
  if p == "above" || p == "top" then
    (bounds.centerX - dims.width / 2, bounds.minY - dims.height - gap)
  else if p == "below" || p == "bottom" then
    (bounds.centerX - dims.width / 2, bounds.maxY + gap)
  else if p == "left" then
    (bounds.minX - dims.width - gap, bounds.centerY - dims.height / 2)
  else if p == "right" then
    (bounds.maxX + gap, bounds.centerY - dims.height / 2)
  else if p == "top-left" then
    (bounds.minX - dims.width - gap, bounds.minY - dims.height - gap)
  else if p == "top-right" then
    (bounds.maxX + gap, bounds.minY - dims.height - gap)
  else if p == "bottom-left" then
    (bounds.minX - dims.width - gap, bounds.maxY + gap)
  else if p == "bottom-right" then
    (bounds.maxX + gap, bounds.maxY + gap)
  else
    (bounds.maxX + gap, bounds.centerY - dims.height / 2)

/-- `calculateRelativePosition` (graphLayout.ts lines 540–548). -/
def calculateRelativePosition (position : String) (targetNode : LayoutNode)
    (dims : Dims) (gap : ℚ) : ℚ × ℚ :=
  calculatePositionRelativeTo position (getBoundingBoxForNode targetNode) dims gap

/-- `calculateCanvasPosition` (graphLayout.ts lines 551–563). -/
def calculateCanvasPosition (position : String) (existingNodes : List LayoutNode)
    (dims : Dims) (gap : ℚ) : ℚ × ℚ :=
  if existingNodes.isEmpty then (0, 0)
  else calculatePositionRelativeTo position (getBoundingBoxForNodes existingNodes)
    dims gap

/-- `calculatePosition` (graphLayout.ts lines 422–439).  `layoutGraph`
calls it for each hint-positioned node with `existingNodes` bound to the
laid-out nodes that are not themselves hint-positioned (line 403), so the
canvas fallback uses the bounding box of the union of all
non-hint-positioned nodes. -/
def calculatePosition (node : GraphNode) (existingNodes : List LayoutNode)
    (dims : Dims) : ℚ × ℚ :=
  if strTruthy node.relativeTo then
    match existingNodes.find? (fun n => some n.id == node.relativeTo) with
    | some targetNode =>
      calculateRelativePosition (jsOrStr node.position ("right")) targetNode dims GAP
    | none =>
      calculateCanvasPosition (jsOrStr node.position ("right")) existingNodes dims GAP
  else
    calculateCanvasPosition (jsOrStr node.position ("right")) existingNodes dims GAP

/-- The set of hint-positioned node ids computed by `layoutGraph`
(graphLayout.ts lines 285–287): non-frame nodes carrying a truthy
`position` hint. -/
def positionedNodeIds (state : GraphState) : List String :=
  ((state.nodes.map Prod.snd).filter
    (fun n => !(n.type == NodeType.frame) && strTruthy n.position)).map
    (fun n => n.id)

/-! ### Statement shorthands -/

/-- The server-side node the round trip (client `serializeGraphState`
followed by server `syncFrom`) produces for a client node: every wire
field except `opacity`, which the server data model lacks. -/
def serverNodeOfGraph (n : GraphNode) : ServerGraphNode :=
  { id := n.id
    label := n.label
    description := n.description
    type := n.type
    parentId := n.parentId
    color := n.color
    position := n.position
    relativeTo := n.relativeTo }

/-- The server-side edge the round trip produces for a client edge: the
endpoints and direction only — the wire `id` is dropped. -/
def serverEdgeOfGraph (e : GraphEdge) : ServerGraphEdge :=
  { sourceId := e.sourceId
    targetId := e.targetId
    bidirectional := e.bidirectional.getD false }

/-- The orphan-edge cleanup pass leaves the node map untouched and keeps
exactly the edges whose two endpoints are both present in the node map. -/
def cleanupRemovesExactlyOrphans (s : GraphState) : Prop :=
  (cleanupOrphanEdges s).nodes = s.nodes ∧
  ∀ k e, ((k, e) ∈ (cleanupOrphanEdges s).edges ↔
    (k, e) ∈ s.edges ∧ mapHas s.nodes e.sourceId = true ∧
      mapHas s.nodes e.targetId = true)

/-- The edge `e` comes from an arrow of `shapes` both of whose endpoint
bindings — binding records of `records` with terminal roles `start` and
`end` — resolve to a bound (truthy) shape id, the source being the
stripped `start` target and the target the stripped `end` target. -/
def edgeHasBothBindings (records shapes : List TLRecord) (e : GraphEdge) : Prop :=
  ∃ arrow ∈ shapes, arrow.type = some ("arrow") ∧
  ∃ sb ∈ records, ∃ eb ∈ records,
    sb.typeName = "binding" ∧ sb.type = some ("arrow") ∧
    sb.fromId = some arrow.id ∧ sb.props.terminal = some ("start") ∧
    eb.typeName = "binding" ∧ eb.type = some ("arrow") ∧
    eb.fromId = some arrow.id ∧ eb.props.terminal = some ("end") ∧
    strTruthy sb.toId = true ∧ strTruthy eb.toId = true ∧
    e.sourceId = jsReplaceOnce (sb.toId.getD ("")) ("shape:") ∧
    e.targetId = jsReplaceOnce (eb.toId.getD ("")) ("shape:")

/-! ### Concrete instances used by witnesses and counterexamples -/

/-- A plain box node. -/
def nA : GraphNode :=
  { id := "a", label := "A", description := "", type := NodeType.box }

/-- The same box node with an opacity override. -/
def nAop : GraphNode :=
  { id := "a", label := "A", description := "", type := NodeType.box
    opacity := some 1 }

/-- A top-level frame. -/
def frameF1 : GraphNode :=
  { id := "f1", label := "F1", description := "", type := NodeType.frame }

/-- A frame nested inside `f1`. -/
def frameF2 : GraphNode :=
  { id := "f2", label := "F2", description := "", type := NodeType.frame
    parentId := some ("f1") }

/-- A box nested inside the nested frame `f2`. -/
def childN : GraphNode :=
  { id := "n", label := "N", description := "", type := NodeType.box
    parentId := some ("f2") }

/-- A chain of nested frames: f1 is the parent of f2, f2 the parent of n. -/
def nestedFrameState : GraphState :=
  { nodes := [("f1", frameF1), ("f2", frameF2), ("n", childN)], edges := [] }

/-- Delete the outer frame of the chain. -/
def deleteF1 : SketchAction := { action := "delete_node", id := some ("f1") }

/-- An edge whose source id does not name any node. -/
def ghostEdge : GraphEdge := { id := "g->a", sourceId := "g", targetId := "a" }

/-- A state holding node `a` and an edge dangling from the absent id `g`. -/
def ghostEdgeState : GraphState :=
  { nodes := [("a", nA)], edges := [("g->a", ghostEdge)] }

/-- Delete the id `g`, which is not in the node map. -/
def deleteGhost : SketchAction := { action := "delete_node", id := some ("g") }

/-- The node of the merge-semantics example of the claims. -/
def nodeN1 : GraphNode :=
  { id := "n1", label := "A", description := "d", type := NodeType.server }

/-- A state holding only `nodeN1`. -/
def stateN1 : GraphState := { nodes := [("n1", nodeN1)], edges := [] }

/-- An update that carries a present-but-empty `label` field. -/
def emptyLabelUpdate : SketchAction :=
  { action := "update_node", id := some ("n1"), label := some ("") }

/-- The update of the merge-semantics example: set only the label to B. -/
def labelBUpdate : SketchAction :=
  { action := "update_node", id := some ("n1"), label := some ("B") }

/-- An edge out of the frame `f1`. -/
def frameEdge : GraphEdge :=
  { id := "e", sourceId := "f1", targetId := "a", bidirectional := some false }

/-- A state with a frame, a box, and an edge out of the frame. -/
def frameEdgeState : GraphState :=
  { nodes := [("f1", frameF1), ("a", nA)], edges := [("e", frameEdge)] }

/-- Delete an edge id that no edge carries. -/
def deleteEdgeMissing : SketchAction :=
  { action := "delete_edge", id := some ("e1") }

/-- Sync example: node without opacity, edge with id `e1`. -/
def syncS1 : GraphState :=
  { nodes := [("a", nA)]
    edges := [("e1", { id := "e1", sourceId := "a", targetId := "a" })] }

/-- Sync example: same node with an opacity, same edge under id `e2`. -/
def syncS2 : GraphState :=
  { nodes := [("a", nAop)]
    edges := [("e2", { id := "e2", sourceId := "a", targetId := "a" })] }

/-- Delete an id that nothing in `stateN1` carries or references. -/
def deleteZZ : SketchAction := { action := "delete_node", id := some ("zz") }

/-- A native tldraw frame shape record. -/
def frameShapeRec : TLRecord :=
  { typeName := "shape", id := "shape:f1", type := some ("frame") }

/-- A diagram-node shape visually parented inside the frame shape. -/
def childShapeRec : TLRecord :=
  { typeName := "shape", id := "shape:n1", type := some ("diagram-node")
    parentId := some ("shape:f1")
    props := { label := some ("N1"), nodeType := some NodeType.box } }

/-- A snapshot holding the frame shape and its nested diagram node. -/
def frameChildSnapshot : List TLRecord := [frameShapeRec, childShapeRec]

/-- The node that extracting `frameChildSnapshot` yields for `n1`. -/
def extractedN1 : GraphNode :=
  { id := "n1", label := "N1", description := "", type := NodeType.box
    parentId := some ("f1") }

/-- A laid-out reference node occupying a known bounding box. -/
def n1LN : LayoutNode :=
  { id := "n1", label := "A", description := "", type := NodeType.box
    x := 0, y := 0, width := 200, height := 100 }

/-- A text node hint-positioned above `n1`. -/
def textAbove : GraphNode :=
  { id := "t", label := "T", description := "", type := NodeType.text
    position := some ("above"), relativeTo := some ("n1") }

/-- The same text node pointing at an id that resolves to no node. -/
def textAboveUnresolved : GraphNode :=
  { id := "t", label := "T", description := "", type := NodeType.text
    position := some ("above"), relativeTo := some ("zz") }

/-- A known bounding box. -/
def bT : BoundingBox :=
  { minX := 0, maxX := 200, minY := 0, maxY := 100
    centerX := 100, centerY := 50 }

/-- The text-node dimensions. -/
def dT : Dims := { width := 300, height := 100 }

/-! ### Helper lemmas about the map primitives -/

theorem mem_mapSet {α : Type} (m : List (String × α)) (k : String) (v : α)
    (q : String × α) : q ∈ mapSet m k v → q ∈ m ∨ q = (k, v) := by
  induction m with
  | nil =>
    intro h
    right
    simpa [mapSet] using h
  | cons p rest ih =>
    intro h
    by_cases hk : (p.1 == k) = true
    · rw [mapSet, if_pos hk] at h
      rcases List.mem_cons.1 h with h1 | h1
      · right; exact h1
      · left; exact List.mem_cons_of_mem _ h1
    · rw [mapSet, if_neg hk] at h
      rcases List.mem_cons.1 h with h1 | h1
      · left; exact h1 ▸ List.mem_cons_self _ _
      · rcases ih h1 with h' | h'
        · left; exact List.mem_cons_of_mem _ h'
        · right; exact h'

theorem mapSet_of_not_has {α : Type} (m : List (String × α)) (k : String)
    (v : α) : mapHas m k = false → mapSet m k v = m ++ [(k, v)] := by
  induction m with
  | nil => intro _; rfl
  | cons p rest ih =>
    intro h
    unfold mapHas at h
    simp only [List.any_cons, Bool.or_eq_false_iff] at h
    rw [mapSet, if_neg (by simp [h.1]), ih h.2, List.cons_append]

theorem mapGet_mapSet_self {α : Type} (m : List (String × α)) (k : String)
    (v : α) : mapGet (mapSet m k v) k = some v := by
  induction m with
  | nil => simp [mapSet, mapGet]
  | cons p rest ih =>
    by_cases hk : (p.1 == k) = true
    · rw [mapSet, if_pos hk]
      simp [mapGet]
    · rw [mapSet, if_neg hk]
      unfold mapGet at ih ⊢
      rw [List.find?_cons_of_neg _ (by simpa using hk)]
      exact ih

theorem mapGet_mapSet_ne {α : Type} (m : List (String × α)) (k k' : String)
    (v : α) (h : k' ≠ k) : mapGet (mapSet m k v) k' = mapGet m k' := by
  induction m with
  | nil =>
    unfold mapSet mapGet
    rw [List.find?_cons_of_neg _ (by simp [Ne.symm h]), List.find?_nil]
  | cons p rest ih =>
    by_cases hk : (p.1 == k) = true
    · rw [mapSet, if_pos hk]
      have hpk : (p.1 == k') = false := by
        have : p.1 = k := by simpa using hk
        simp [this, Ne.symm h]
      unfold mapGet
      rw [List.find?_cons_of_neg _ (by simp [Ne.symm h]),
        List.find?_cons_of_neg _ (by simp [hpk])]
    · rw [mapSet, if_neg hk]
      unfold mapGet at ih ⊢
      by_cases hp : (p.1 == k') = true
      · rw [List.find?_cons_of_pos (p := fun (q : String × α) => q.1 == k') _ hp,
          List.find?_cons_of_pos (p := fun (q : String × α) => q.1 == k') _ hp]
      · rw [List.find?_cons_of_neg _ (by simpa using hp),
          List.find?_cons_of_neg _ (by simpa using hp)]
        exact ih

theorem mapGet_some_mapHas {α : Type} (m : List (String × α)) (k : String)
    (v : α) (h : mapGet m k = some v) : mapHas m k = true := by
  unfold mapGet at h
  unfold mapHas
  rcases Option.map_eq_some'.1 h with ⟨q, hq, _⟩
  have h1 := List.mem_of_find?_eq_some hq
  have h2 := List.find?_some hq
  exact List.any_eq_true.2 ⟨q, h1, h2⟩

theorem mapHas_false_iff {α : Type} (m : List (String × α)) (k : String) :
    mapHas m k = false ↔ ∀ p ∈ m, p.1 ≠ k := by
  unfold mapHas
  simp

/-! ### Helper lemmas about `deleteFirstEdgeMatch` -/

theorem deleteFirstEdgeMatch_some (es : List (String × GraphEdge))
    (src tgt : String) (es' : List (String × GraphEdge)) :
    deleteFirstEdgeMatch es src tgt = some es' →
    ∃ pre e post, es = pre ++ e :: post ∧ es' = pre ++ post ∧
      (e.2.sourceId = src ∧ e.2.targetId = tgt) ∧
      ∀ e' ∈ pre, ¬(e'.2.sourceId = src ∧ e'.2.targetId = tgt) := by
  induction es generalizing es' with
  | nil =>
    intro h
    simp [deleteFirstEdgeMatch] at h
  | cons e rest ih =>
    intro h
    by_cases hm : (e.2.sourceId == src && e.2.targetId == tgt) = true
    · rw [deleteFirstEdgeMatch, if_pos hm] at h
      simp only [Bool.and_eq_true, beq_iff_eq] at hm
      exact ⟨[], e, rest, by simp, by simpa using h.symm, hm, by simp⟩
    · rw [deleteFirstEdgeMatch, if_neg hm] at h
      simp only [Bool.and_eq_true, beq_iff_eq, not_and] at hm
      rcases Option.map_eq_some'.1 h with ⟨l, hl, hcons⟩
      rcases ih l hl with ⟨pre, e0, post, h1, h2, h3, h4⟩
      refine ⟨e :: pre, e0, post, by simp [h1], by simp [h2, hcons.symm], h3, ?_⟩
      intro e' he'
      rcases List.mem_cons.1 he' with he1 | he1
      · subst he1
        intro hc
        exact hm hc.1 hc.2
      · exact h4 e' he1

theorem deleteFirstEdgeMatch_none (es : List (String × GraphEdge))
    (src tgt : String) (h : deleteFirstEdgeMatch es src tgt = none) :
    ∀ e ∈ es, ¬(e.2.sourceId = src ∧ e.2.targetId = tgt) := by
  induction es with
  | nil => simp
  | cons e rest ih =>
    by_cases hm : (e.2.sourceId == src && e.2.targetId == tgt) = true
    · rw [deleteFirstEdgeMatch, if_pos hm] at h
      exact absurd h (by simp)
    · rw [deleteFirstEdgeMatch, if_neg hm] at h
      intro e' he'
      rcases List.mem_cons.1 he' with he1 | he1
      · subst he1
        simpa using hm
      · exact ih (by simpa using h) e' he1

/-! ### Unfolding lemmas for `applyAction` -/

theorem applyAction_delete_node_eq (s : GraphState) (i : String) (hi : i ≠ "") :
    applyAction s { action := "delete_node", id := some i } =
      (true,
        { nodes := (mapDelete s.nodes i).filter
            (fun p => !(p.2.parentId == some i))
          edges := s.edges.filter
            (fun p => !(p.2.sourceId == i || p.2.targetId == i)) }) := by
  unfold applyAction
  simp [strTruthy, hi]

/-! ### C7 -/

/-- C7: whenever `applyAction` reports failure (a missing required field,
an unknown node for `update_node`, no resolvable edge for `delete_edge`,
or an unrecognized action type), the graph state is returned completely
unchanged: no node or edge is added, removed, or modified. -/
theorem applyAction_rejected_leaves_state_unchanged (s : GraphState)
    (a : SketchAction) : (applyAction s a).1 = false → (applyAction s a).2 = s := by
  unfold applyAction
  repeat' split
  all_goals intro h
  all_goals first
  | rfl
  | simp at h

/-- Witness for C7: an unrecognized action type is rejected and the empty
state is unchanged. -/
theorem applyAction_rejected_leaves_state_unchanged_w :
    (applyAction createGraphState { action := "recolor_node" }).1 = false ∧
    (applyAction createGraphState { action := "recolor_node" }).2 =
      createGraphState :=
  ⟨by decide, applyAction_rejected_leaves_state_unchanged createGraphState
    { action := "recolor_node" } (by decide)⟩

/-! ### C1 -/

/-- C1 counterexample: in the nested chain f1 → f2 → n (each `parentId`
pointing one level up), deleting f1 returns success and removes f2, but
the transitive descendant n is still in the node map, so the cascade is
not recursive to a fixpoint. -/
theorem delete_node_cascade_not_recursive_cex :
    frameF2.parentId = some ("f1") ∧ childN.parentId = some ("f2") ∧
    (applyAction nestedFrameState deleteF1).1 = true ∧
    mapHas (applyAction nestedFrameState deleteF1).2.nodes ("f2") = false ∧
    mapHas (applyAction nestedFrameState deleteF1).2.nodes ("n") = true := by
  decide

/-- C1 amended: `delete_node` removes the node stored under the id, every
edge whose source or target equals the id, and exactly the nodes whose
`parentId` equals the id (the direct children).  The cascade is a single
pass: a node survives iff its key differs from the deleted id and its own
`parentId` is not the deleted id, so grandchildren of nested frames are
retained. -/
theorem delete_node_cascade_one_level (s : GraphState) (i : String)
    (hi : i ≠ "") :
    (applyAction s { action := "delete_node", id := some i }).1 = true ∧
    (∀ k n, ((k, n) ∈ (applyAction s
        { action := "delete_node", id := some i }).2.nodes ↔
      (k, n) ∈ s.nodes ∧ k ≠ i ∧ n.parentId ≠ some i)) ∧
    (∀ k e, ((k, e) ∈ (applyAction s
        { action := "delete_node", id := some i }).2.edges ↔
      (k, e) ∈ s.edges ∧ e.sourceId ≠ i ∧ e.targetId ≠ i)) := by
  rw [applyAction_delete_node_eq s i hi]
  refine ⟨rfl, ?_, ?_⟩
  · intro k n
    simp only [mapDelete, List.mem_filter, Bool.not_eq_true']
    constructor
    · rintro ⟨⟨h1, h2⟩, h3⟩
      exact ⟨h1, by simpa using h2, by simpa using h3⟩
    · rintro ⟨h1, h2, h3⟩
      exact ⟨⟨h1, by simpa using h2⟩, by simpa using h3⟩
  · intro k e
    simp only [List.mem_filter, Bool.not_eq_true']
    constructor
    · rintro ⟨h1, h2⟩
      simp only [Bool.or_eq_false_iff, beq_eq_false_iff_ne] at h2
      exact ⟨h1, h2.1, h2.2⟩
    · rintro ⟨h1, h2, h3⟩
      exact ⟨h1, by simp [h2, h3]⟩

/-- Witness for C1 amended, at the nested-frame chain. -/
theorem delete_node_cascade_one_level_w :
    ("f1" : String) ≠ "" ∧
    ((applyAction nestedFrameState deleteF1).1 = true ∧
    (∀ k n, ((k, n) ∈ (applyAction nestedFrameState deleteF1).2.nodes ↔
      (k, n) ∈ nestedFrameState.nodes ∧ k ≠ "f1" ∧ n.parentId ≠ some ("f1"))) ∧
    (∀ k e, ((k, e) ∈ (applyAction nestedFrameState deleteF1).2.edges ↔
      (k, e) ∈ nestedFrameState.edges ∧ e.sourceId ≠ "f1" ∧
        e.targetId ≠ "f1"))) :=
  ⟨by decide, delete_node_cascade_one_level nestedFrameState "f1" (by decide)⟩

/-! ### C8 -/

/-- C8 counterexample: `delete_node` on the id `g`, which is not in the
node map, returns success but does not leave the state unchanged — it
removes the dangling edge `g->a` that references `g`. -/
theorem delete_node_nonexistent_id_changes_state_cex :
    mapHas ghostEdgeState.nodes ("g") = false ∧
    (applyAction ghostEdgeState deleteGhost).1 = true ∧
    (applyAction ghostEdgeState deleteGhost).2 ≠ ghostEdgeState := by
  decide

/-- C8 amended: `delete_node` on a non-empty id always returns success;
it leaves the state unchanged when the id is absent from the node map AND
no edge references the id AND no node has the id as its `parentId`; and
applying `delete_node` twice with the same id always yields exactly the
state of applying it once. -/
theorem delete_node_idempotent_and_unreferenced_noop (s : GraphState)
    (i : String) (hi : i ≠ "") (h2 : mapHas s.nodes i = false)
    (h3 : ∀ p ∈ s.edges, p.2.sourceId ≠ i ∧ p.2.targetId ≠ i)
    (h4 : ∀ p ∈ s.nodes, p.2.parentId ≠ some i) :
    applyAction s { action := "delete_node", id := some i } = (true, s) ∧
    ∀ t : GraphState,
      (applyAction (applyAction t { action := "delete_node", id := some i }).2
        { action := "delete_node", id := some i }).2 =
        (applyAction t { action := "delete_node", id := some i }).2 := by
  constructor
  · rw [applyAction_delete_node_eq s i hi]
    have hnodes : mapDelete s.nodes i = s.nodes := by
      unfold mapDelete
      exact List.filter_eq_self.2 (fun p hp => by
        simpa using (mapHas_false_iff s.nodes i).1 h2 p hp)
    rw [hnodes]
    have hpar : s.nodes.filter (fun p => !(p.2.parentId == some i)) = s.nodes :=
      List.filter_eq_self.2 (fun p hp => by simpa using h4 p hp)
    have hedg : s.edges.filter
        (fun p => !(p.2.sourceId == i || p.2.targetId == i)) = s.edges :=
      List.filter_eq_self.2 (fun p hp => by
        rcases h3 p hp with ⟨ha, hb⟩
        simp [ha, hb])
    rw [hpar, hedg]
  · intro t
    rw [applyAction_delete_node_eq t i hi]
    rw [applyAction_delete_node_eq _ i hi]
    have hX : ∀ p ∈ (mapDelete t.nodes i).filter
        (fun p => !(p.2.parentId == some i)),
        (p.1 != i) = true ∧ (!(p.2.parentId == some i)) = true := by
      intro p hp
      have h1 := (List.mem_filter.1 hp).1
      have h2' := (List.mem_filter.1 hp).2
      unfold mapDelete at h1
      exact ⟨(List.mem_filter.1 h1).2, h2'⟩
    have e1 : mapDelete ((mapDelete t.nodes i).filter
        (fun p => !(p.2.parentId == some i))) i =
        (mapDelete t.nodes i).filter (fun p => !(p.2.parentId == some i)) := by
      conv_lhs => rw [mapDelete]
      exact List.filter_eq_self.2 (fun p hp => (hX p hp).1)
    have e2 : ((mapDelete t.nodes i).filter
        (fun p => !(p.2.parentId == some i))).filter
        (fun p => !(p.2.parentId == some i)) =
        (mapDelete t.nodes i).filter (fun p => !(p.2.parentId == some i)) :=
      List.filter_eq_self.2 (fun p hp => (hX p hp).2)
    have e3 : (t.edges.filter
        (fun p => !(p.2.sourceId == i || p.2.targetId == i))).filter
        (fun p => !(p.2.sourceId == i || p.2.targetId == i)) =
        t.edges.filter (fun p => !(p.2.sourceId == i || p.2.targetId == i)) := by
      rw [List.filter_filter]
      simp only [Bool.and_self]
    simp only [e1, e2, e3]

/-- Witness for C8 amended: deleting the unreferenced absent id `zz` from
`stateN1` is a successful no-op, and deleting `g` twice from the
ghost-edge state equals deleting it once. -/
theorem delete_node_idempotent_and_unreferenced_noop_w :
    mapHas stateN1.nodes ("zz") = false ∧
    applyAction stateN1 deleteZZ = (true, stateN1) ∧
    (applyAction (applyAction ghostEdgeState deleteZZ).2 deleteZZ).2 =
      (applyAction ghostEdgeState deleteZZ).2 :=
  ⟨by decide,
    (delete_node_idempotent_and_unreferenced_noop stateN1 "zz" (by decide)
      (by decide) (by decide) (by decide)).1,
    (delete_node_idempotent_and_unreferenced_noop stateN1 "zz" (by decide)
      (by decide) (by decide) (by decide)).2 ghostEdgeState⟩

/-! ### C3 -/

/-- The merged node produced by the `update_node` branch of `applyAction`
for an action `a` applied over the existing node `ex` stored under `i`. -/
def mergedNode (a : SketchAction) (i : String) (ex : GraphNode) : GraphNode :=
  { id := i
    label := if strTruthy a.label then a.label.getD ("") else ex.label
    description := a.description.getD ex.description
    type := a.type.getD ex.type
    parentId := if a.parent_id.isSome then a.parent_id else ex.parentId
    color := if a.color.isSome then a.color else ex.color
    position := if a.position.isSome then a.position else ex.position
    relativeTo := if a.relative_to.isSome then a.relative_to else ex.relativeTo
    opacity := if a.opacity.isSome then a.opacity else ex.opacity }

theorem applyAction_update_node_eq (s : GraphState) (a : SketchAction)
    (i : String) (ex : GraphNode) (hact : a.action = "update_node")
    (hid : a.id = some i) (hi : i ≠ "") (hex : mapGet s.nodes i = some ex) :
    applyAction s a =
      (true, { s with nodes := mapSet s.nodes i (mergedNode a i ex) }) := by
  have hhas : mapHas s.nodes i = true := mapGet_some_mapHas s.nodes i ex hex
  unfold applyAction
  rw [hact, hid]
  simp [strTruthy, hi, hhas, hex, mergedNode]

/-- C3 counterexample: the action carries a present `label` field (the
empty string), yet applying it returns success and leaves the stored node
completely unchanged — the present field did not overwrite the stored
value, contradicting the claim that every field present in the action
overwrites. -/
theorem update_node_present_empty_label_not_overwritten_cex :
    emptyLabelUpdate.label = some ("") ∧ nodeN1.label = "A" ∧
    (applyAction stateN1 emptyLabelUpdate).1 = true ∧
    mapGet (applyAction stateN1 emptyLabelUpdate).2.nodes ("n1") =
      some nodeN1 := by
  decide

/-- C3 amended: `update_node` on an existing node performs a field-level
merge in which `description`, `parentId`, `color`, `position`,
`relativeTo` and `opacity` overwrite exactly when present, and `label` and
`type` overwrite when present and truthy — a present-but-empty `label`
keeps the stored label (the `type` enumeration has no empty value, so for
`type` present and truthy coincide).  Absent fields always preserve the
stored values; all other nodes and all edges are untouched.  In particular
updating only the label of `{id:"n1", label:"A", description:"d",
type:"server"}` to `"B"` preserves the description and the type. -/
theorem update_node_field_merge (s : GraphState) (a : SketchAction)
    (i : String) (ex : GraphNode) (hact : a.action = "update_node")
    (hid : a.id = some i) (hi : i ≠ "") (hex : mapGet s.nodes i = some ex) :
    (applyAction s a).1 = true ∧
    mapGet (applyAction s a).2.nodes i = some (mergedNode a i ex) ∧
    (∀ k, k ≠ i → mapGet (applyAction s a).2.nodes k = mapGet s.nodes k) ∧
    (applyAction s a).2.edges = s.edges := by
  rw [applyAction_update_node_eq s a i ex hact hid hi hex]
  refine ⟨rfl, mapGet_mapSet_self _ _ _, ?_, rfl⟩
  intro k hk
  exact mapGet_mapSet_ne s.nodes i k (mergedNode a i ex) hk

/-- Witness for C3 amended, at the claims' own example: updating only the
label of `nodeN1` to `B` yields label `B` with description `d` and type
`server` preserved. -/
theorem update_node_field_merge_w :
    mapGet stateN1.nodes ("n1") = some nodeN1 ∧
    (applyAction stateN1 labelBUpdate).1 = true ∧
    mapGet (applyAction stateN1 labelBUpdate).2.nodes ("n1") =
      some (mergedNode labelBUpdate "n1" nodeN1) ∧
    mergedNode labelBUpdate "n1" nodeN1 =
      { id := "n1", label := "B", description := "d"
        type := NodeType.server } :=
  ⟨by decide,
    (update_node_field_merge stateN1 labelBUpdate "n1" nodeN1 (by decide)
      (by decide) (by decide) (by decide)).1,
    (update_node_field_merge stateN1 labelBUpdate "n1" nodeN1 (by decide)
      (by decide) (by decide) (by decide)).2.1,
    by decide⟩

/-! ### C6 -/

/-- C6 counterexample: `delete_edge` with an id that matches no edge (the
state has no edges at all) returns success, though neither an id match nor
a pair match is resolvable — the claim requires rejection here. -/
theorem delete_edge_unresolvable_id_returns_true_cex :
    createGraphState.edges = [] ∧
    applyAction createGraphState deleteEdgeMissing =
      (true, createGraphState) := by
  decide

/-- C6 amended: with a truthy `id`, `delete_edge` deletes whatever edge is
stored under that id (a no-op when none is) and returns success
unconditionally; with no truthy `id` but both endpoint ids present, it
deletes exactly the first edge in map order whose `(sourceId, targetId)`
pair matches and rejects when no pair matches; it rejects when neither a
truthy id nor both endpoint ids are provided. -/
theorem delete_edge_spec (s : GraphState) (a : SketchAction)
    (hact : a.action = "delete_edge") :
    (strTruthy a.id = true →
      applyAction s a =
        (true, { s with edges := mapDelete s.edges (a.id.getD ("")) })) ∧
    (strTruthy a.id = false → strTruthy a.source_id = true →
      strTruthy a.target_id = true →
      (∀ es', deleteFirstEdgeMatch s.edges (a.source_id.getD (""))
          (a.target_id.getD ("")) = some es' →
        applyAction s a = (true, { s with edges := es' }) ∧
        ∃ pre e post, s.edges = pre ++ e :: post ∧ es' = pre ++ post ∧
          (e.2.sourceId = a.source_id.getD ("") ∧
            e.2.targetId = a.target_id.getD ("")) ∧
          ∀ e' ∈ pre, ¬(e'.2.sourceId = a.source_id.getD ("") ∧
            e'.2.targetId = a.target_id.getD (""))) ∧
      (deleteFirstEdgeMatch s.edges (a.source_id.getD (""))
          (a.target_id.getD ("")) = none →
        applyAction s a = (false, s))) ∧
    (strTruthy a.id = false →
      (strTruthy a.source_id = false ∨ strTruthy a.target_id = false) →
      applyAction s a = (false, s)) := by
  refine ⟨?_, ?_, ?_⟩
  · intro hid
    unfold applyAction
    rw [hact]
    simp [hid]
  · intro hid hsrc htgt
    refine ⟨?_, ?_⟩
    · intro es' hdel
      refine ⟨?_, ?_⟩
      · unfold applyAction
        rw [hact]
        simp [hid, hsrc, htgt, hdel]
      · exact deleteFirstEdgeMatch_some s.edges _ _ es' hdel
    · intro hdel
      unfold applyAction
      rw [hact]
      simp [hid, hsrc, htgt, hdel]
  · intro hid hst
    unfold applyAction
    rw [hact]
    rcases hst with h | h
    · simp [hid, h]
    · simp [hid, h]

/-- Witness for C6 amended, at the ghost-edge state and the action
deleting the absent edge id `e1`. -/
theorem delete_edge_spec_w :
    (strTruthy deleteEdgeMissing.id = true →
      applyAction ghostEdgeState deleteEdgeMissing =
        (true, { ghostEdgeState with edges := mapDelete ghostEdgeState.edges (deleteEdgeMissing.id.getD ("")) })) ∧
    (strTruthy deleteEdgeMissing.id = false →
      strTruthy deleteEdgeMissing.source_id = true →
      strTruthy deleteEdgeMissing.target_id = true →
      (∀ es', deleteFirstEdgeMatch ghostEdgeState.edges
          (deleteEdgeMissing.source_id.getD (""))
          (deleteEdgeMissing.target_id.getD ("")) = some es' →
        applyAction ghostEdgeState deleteEdgeMissing =
          (true, { ghostEdgeState with edges := es' }) ∧
        ∃ pre e post, ghostEdgeState.edges = pre ++ e :: post ∧
          es' = pre ++ post ∧
          (e.2.sourceId = deleteEdgeMissing.source_id.getD ("") ∧
            e.2.targetId = deleteEdgeMissing.target_id.getD ("")) ∧
          ∀ e' ∈ pre,
            ¬(e'.2.sourceId = deleteEdgeMissing.source_id.getD ("") ∧
              e'.2.targetId = deleteEdgeMissing.target_id.getD (""))) ∧
      (deleteFirstEdgeMatch ghostEdgeState.edges
          (deleteEdgeMissing.source_id.getD (""))
          (deleteEdgeMissing.target_id.getD ("")) = none →
        applyAction ghostEdgeState deleteEdgeMissing =
          (false, ghostEdgeState))) ∧
    (strTruthy deleteEdgeMissing.id = false →
      (strTruthy deleteEdgeMissing.source_id = false ∨
        strTruthy deleteEdgeMissing.target_id = false) →
      applyAction ghostEdgeState deleteEdgeMissing =
        (false, ghostEdgeState)) :=
  delete_edge_spec ghostEdgeState deleteEdgeMissing (by decide)

/-! ### C2 -/

theorem contains_true_iff (l : List String) (x : String) :
    l.contains x = true ↔ x ∈ l := by
  simp

theorem contains_false_iff (l : List String) (x : String) :
    l.contains x = false ↔ x ∉ l := by
  simp

theorem mem_layoutGraphFrameIds (s : GraphState) (i : String) :
    i ∈ layoutGraphFrameIds s ↔
      ∃ p ∈ s.nodes, p.2.id = i ∧ p.2.type = NodeType.frame := by
  unfold layoutGraphFrameIds
  constructor
  · intro h
    rcases List.mem_map.1 h with ⟨f, hf, hid⟩
    rcases List.mem_filter.1 hf with ⟨hf1, hf2⟩
    rcases List.mem_map.1 hf1 with ⟨p, hp, hps⟩
    exact ⟨p, hp, by rw [hps, hid], by rw [hps]; simpa using hf2⟩
  · rintro ⟨p, hp, hid, hty⟩
    exact List.mem_map.2 ⟨p.2, List.mem_filter.2
      ⟨List.mem_map.2 ⟨p, hp, rfl⟩, by simp [hty]⟩, hid⟩

/-- C2 counterexample: the state holds the frame `f1`, the box `a` and the
edge `e` from the frame to the box; that frame-touching edge is excluded
from the ELK input, but it does appear in the edges list of the
LayoutResult returned by `layoutGraph`, contradicting "never appears". -/
theorem frame_edge_in_layout_result_cex :
    frameF1.type = NodeType.frame ∧ frameEdge.sourceId = "f1" ∧
    layoutGraphFrameIds frameEdgeState = ["f1"] ∧
    layoutGraphElkEdges frameEdgeState = [] ∧
    layoutGraphResultEdges frameEdgeState =
      [{ id := "e", sourceId := "f1", targetId := "a"
         bidirectional := some false }] := by
  decide

/-- C2 amended: an edge whose source or target is the id of a frame-typed
node is excluded from the hierarchical ELK input (and every ELK input edge
touches no frame id), while the edges list of the LayoutResult carries
EVERY edge of the state through unchanged — frame-touching edges
included. -/
theorem layout_frame_edge_handling (s : GraphState) :
    (∀ i, i ∈ layoutGraphFrameIds s ↔
      ∃ p ∈ s.nodes, p.2.id = i ∧ p.2.type = NodeType.frame) ∧
    (∀ ee ∈ layoutGraphElkEdges s, ∀ i, (i ∈ ee.sources ∨ i ∈ ee.targets) →
      i ∉ layoutGraphFrameIds s) ∧
    (∀ k e, (k, e) ∈ s.edges →
      ((⟨e.id, [e.sourceId], [e.targetId]⟩ : ElkEdge) ∈ layoutGraphElkEdges s ↔
        e.sourceId ∉ layoutGraphFrameIds s ∧
          e.targetId ∉ layoutGraphFrameIds s)) ∧
    (∀ k e, (k, e) ∈ s.edges →
      (⟨e.id, e.sourceId, e.targetId, e.bidirectional⟩ : LayoutEdge) ∈
        layoutGraphResultEdges s) ∧
    (∀ le ∈ layoutGraphResultEdges s, ∃ k, ∃ e, (k, e) ∈ s.edges ∧
      le = ⟨e.id, e.sourceId, e.targetId, e.bidirectional⟩) := by
  refine ⟨mem_layoutGraphFrameIds s, ?_, ?_, ?_, ?_⟩
  · intro ee hee i hi
    unfold layoutGraphElkEdges at hee
    rcases List.mem_map.1 hee with ⟨e', he', hmk⟩
    rcases List.mem_filter.1 he' with ⟨_, hcond⟩
    simp only [Bool.and_eq_true, Bool.not_eq_true'] at hcond
    have hsrc : e'.sourceId ∉ layoutGraphFrameIds s :=
      (contains_false_iff _ _).1 hcond.1
    have htgt : e'.targetId ∉ layoutGraphFrameIds s :=
      (contains_false_iff _ _).1 hcond.2
    rcases hi with hi | hi
    · have : i = e'.sourceId := by
        rw [← hmk] at hi
        simpa using hi
      exact this ▸ hsrc
    · have : i = e'.targetId := by
        rw [← hmk] at hi
        simpa using hi
      exact this ▸ htgt
  · intro k e hke
    constructor
    · intro hmem
      unfold layoutGraphElkEdges at hmem
      rcases List.mem_map.1 hmem with ⟨e', he', hmk⟩
      rcases List.mem_filter.1 he' with ⟨_, hcond⟩
      simp only [Bool.and_eq_true, Bool.not_eq_true'] at hcond
      have hids : e'.sourceId = e.sourceId ∧ e'.targetId = e.targetId := by
        have h1 := congrArg ElkEdge.sources hmk
        have h2 := congrArg ElkEdge.targets hmk
        simp at h1 h2
        exact ⟨h1, h2⟩
      exact ⟨hids.1 ▸ (contains_false_iff _ _).1 hcond.1,
        hids.2 ▸ (contains_false_iff _ _).1 hcond.2⟩
    · rintro ⟨hs, ht⟩
      unfold layoutGraphElkEdges
      refine List.mem_map.2 ⟨e, List.mem_filter.2
        ⟨List.mem_map.2 ⟨(k, e), hke, rfl⟩, ?_⟩, rfl⟩
      have hs' : (layoutGraphFrameIds s).contains e.sourceId = false :=
        (contains_false_iff _ _).2 hs
      have ht' : (layoutGraphFrameIds s).contains e.targetId = false :=
        (contains_false_iff _ _).2 ht
      simp only [hs', ht', Bool.not_false, Bool.and_self]
  · intro k e hke
    unfold layoutGraphResultEdges
    exact List.mem_map.2 ⟨e, List.mem_map.2 ⟨(k, e), hke, rfl⟩, rfl⟩
  · intro le hle
    unfold layoutGraphResultEdges at hle
    rcases List.mem_map.1 hle with ⟨e, he, hmk⟩
    rcases List.mem_map.1 he with ⟨p, hp, hps⟩
    exact ⟨p.1, p.2, hp, by rw [← hmk, hps]⟩

/-- Witness for C2 amended, at the frame-edge state. -/
theorem layout_frame_edge_handling_w :
    (∀ i, i ∈ layoutGraphFrameIds frameEdgeState ↔
      ∃ p ∈ frameEdgeState.nodes, p.2.id = i ∧ p.2.type = NodeType.frame) ∧
    (∀ ee ∈ layoutGraphElkEdges frameEdgeState, ∀ i,
      (i ∈ ee.sources ∨ i ∈ ee.targets) →
      i ∉ layoutGraphFrameIds frameEdgeState) ∧
    (∀ k e, (k, e) ∈ frameEdgeState.edges →
      ((⟨e.id, [e.sourceId], [e.targetId]⟩ : ElkEdge) ∈
          layoutGraphElkEdges frameEdgeState ↔
        e.sourceId ∉ layoutGraphFrameIds frameEdgeState ∧
          e.targetId ∉ layoutGraphFrameIds frameEdgeState)) ∧
    (∀ k e, (k, e) ∈ frameEdgeState.edges →
      (⟨e.id, e.sourceId, e.targetId, e.bidirectional⟩ : LayoutEdge) ∈
        layoutGraphResultEdges frameEdgeState) ∧
    (∀ le ∈ layoutGraphResultEdges frameEdgeState, ∃ k, ∃ e,
      (k, e) ∈ frameEdgeState.edges ∧
      le = ⟨e.id, e.sourceId, e.targetId, e.bidirectional⟩) :=
  layout_frame_edge_handling frameEdgeState

/-! ### C9 -/

theorem cleanup_exact (s : GraphState) : cleanupRemovesExactlyOrphans s := by
  constructor
  · rfl
  · intro k e
    unfold cleanupOrphanEdges
    constructor
    · intro h
      have h1 := (List.mem_filter.1 h).1
      have h2 := (List.mem_filter.1 h).2
      simp only [Bool.and_eq_true] at h2
      exact ⟨h1, h2.1, h2.2⟩
    · rintro ⟨h1, h2, h3⟩
      exact List.mem_filter.2 ⟨h1, by simp [h2, h3]⟩

theorem arrowToEdge_some (records : List TLRecord) (arrow : TLRecord)
    (k : String) (e : GraphEdge) :
    arrowToEdge records arrow = some (k, e) →
    ∃ sb ∈ records, ∃ eb ∈ records,
      sb.typeName = "binding" ∧ sb.type = some ("arrow") ∧
      sb.fromId = some arrow.id ∧ sb.props.terminal = some ("start") ∧
      eb.typeName = "binding" ∧ eb.type = some ("arrow") ∧
      eb.fromId = some arrow.id ∧ eb.props.terminal = some ("end") ∧
      strTruthy sb.toId = true ∧ strTruthy eb.toId = true ∧
      e.sourceId = jsReplaceOnce (sb.toId.getD ("")) ("shape:") ∧
      e.targetId = jsReplaceOnce (eb.toId.getD ("")) ("shape:") := by
  intro h
  rcases hsb : ((records.filter
      (fun r => r.typeName == "binding" && r.type == some ("arrow"))).filter
      (fun b => b.fromId == some arrow.id)).find?
      (fun b => b.props.terminal == some ("start")) with _ | sb
  · simp only [arrowToEdge, hsb] at h
    exact absurd h (by simp)
  rcases heb : ((records.filter
      (fun r => r.typeName == "binding" && r.type == some ("arrow"))).filter
      (fun b => b.fromId == some arrow.id)).find?
      (fun b => b.props.terminal == some ("end")) with _ | eb
  · simp only [arrowToEdge, hsb, heb] at h
    exact absurd h (by simp)
  simp only [arrowToEdge, hsb, heb] at h
  by_cases htr : (strTruthy sb.toId && strTruthy eb.toId) = true
  · rw [if_pos htr] at h
    simp only [Option.some.injEq, Prod.mk.injEq] at h
    obtain ⟨hk, he⟩ := h
    simp only [Bool.and_eq_true] at htr
    have hsb_mem := List.mem_of_find?_eq_some hsb
    have hsb_pred : sb.props.terminal = some ("start") := by
      have := List.find?_some hsb
      simpa using this
    have heb_mem := List.mem_of_find?_eq_some heb
    have heb_pred : eb.props.terminal = some ("end") := by
      have := List.find?_some heb
      simpa using this
    have hsb1 := (List.mem_filter.1 hsb_mem).1
    have hsb2 := (List.mem_filter.1 hsb_mem).2
    have hsb3 := (List.mem_filter.1 hsb1).1
    have hsb4 := (List.mem_filter.1 hsb1).2
    have heb1 := (List.mem_filter.1 heb_mem).1
    have heb2 := (List.mem_filter.1 heb_mem).2
    have heb3 := (List.mem_filter.1 heb1).1
    have heb4 := (List.mem_filter.1 heb1).2
    simp only [Bool.and_eq_true, beq_iff_eq] at hsb2 hsb4 heb2 heb4
    refine ⟨sb, hsb3, eb, heb3, hsb4.1, hsb4.2, hsb2, hsb_pred,
      heb4.1, heb4.2, heb2, heb_pred, htr.1, htr.2, ?_, ?_⟩
    · rw [← he]
    · rw [← he]
  · rw [if_neg htr] at h
    exact absurd h (by simp)

/-- C9: the orphan-edge cleanup pass — run both at the end of
`extractGraphFromSnapshot` and after an action batch in `Whiteboard.tsx` —
keeps a state's node map untouched and keeps exactly the edges whose two
endpoints are present in the node map (so it removes exactly the violating
edges and no others); consequently every edge of an extracted graph has
both endpoints in its node map; and the extraction loop materializes an
edge only from an arrow both of whose endpoint bindings resolve to a bound
id. -/
theorem orphan_cleanup_exact (s : GraphState) (records shapes : List TLRecord) :
    cleanupRemovesExactlyOrphans s ∧
    (∀ k e, (k, e) ∈ (extractGraphFromSnapshot records).edges →
      mapHas (extractGraphFromSnapshot records).nodes e.sourceId = true ∧
      mapHas (extractGraphFromSnapshot records).nodes e.targetId = true) ∧
    (∀ k e, (k, e) ∈ extractedEdges records shapes →
      edgeHasBothBindings records shapes e) := by
  refine ⟨cleanup_exact s, ?_, ?_⟩
  · intro k e h
    unfold extractGraphFromSnapshot at h ⊢
    have hiff := (cleanup_exact
      { nodes := extractedNodes (records.filter (fun r => r.typeName == "shape"))
        edges := extractedEdges records
          (records.filter (fun r => r.typeName == "shape")) }).2 k e
    have hmem := hiff.1 h
    rw [(cleanup_exact
      { nodes := extractedNodes (records.filter (fun r => r.typeName == "shape"))
        edges := extractedEdges records
          (records.filter (fun r => r.typeName == "shape")) }).1]
    exact ⟨hmem.2.1, hmem.2.2⟩
  · intro k e h
    unfold extractedEdges at h
    have key := List.foldlRecOn
      (shapes.filter (fun s => s.type == some ("arrow")))
      (fun acc arrow =>
        match arrowToEdge records arrow with
        | some (k, e) => mapSet acc k e
        | none => acc) []
      (motive := fun acc => ∀ q ∈ acc, edgeHasBothBindings records shapes q.2)
      (by simp) ?step
    · exact key (k, e) h
    case step =>
      intro acc hC a ha q hq
      rcases hae : arrowToEdge records a with _ | ke
      · simp only [hae] at hq
        exact hC q hq
      · rcases ke with ⟨k', e'⟩
        simp only [hae] at hq
        rcases mem_mapSet acc k' e' q hq with h1 | h1
        · exact hC q h1
        · have ha1 := (List.mem_filter.1 ha).1
          have ha2 := (List.mem_filter.1 ha).2
          rcases arrowToEdge_some records a k' e' hae with
            ⟨sb, hsb, eb, heb, hrest⟩
          rw [h1]
          exact ⟨a, ha1, by simpa using ha2, sb, hsb, eb, heb, hrest⟩

/-- Witness for C9, at the ghost-edge state (whose dangling edge the pass
removes) and the frame/child snapshot. -/
theorem orphan_cleanup_exact_w :
    cleanupRemovesExactlyOrphans ghostEdgeState ∧
    (∀ k e, (k, e) ∈ (extractGraphFromSnapshot frameChildSnapshot).edges →
      mapHas (extractGraphFromSnapshot frameChildSnapshot).nodes
        e.sourceId = true ∧
      mapHas (extractGraphFromSnapshot frameChildSnapshot).nodes
        e.targetId = true) ∧
    (∀ k e, (k, e) ∈ extractedEdges frameChildSnapshot frameChildSnapshot →
      edgeHasBothBindings frameChildSnapshot frameChildSnapshot e) :=
  orphan_cleanup_exact ghostEdgeState frameChildSnapshot frameChildSnapshot

/-! ### C4 -/

theorem mapHas_true_iff {α : Type} (m : List (String × α)) (k : String) :
    mapHas m k = true ↔ ∃ v, (k, v) ∈ m := by
  unfold mapHas
  rw [List.any_eq_true]
  constructor
  · rintro ⟨q, hq, hbeq⟩
    refine ⟨q.2, ?_⟩
    have : q.1 = k := by simpa using hbeq
    rw [← this]
    exact hq
  · rintro ⟨v, hv⟩
    exact ⟨(k, v), hv, by simp⟩

theorem mem_extractedNodes (shapes : List TLRecord) (k : String)
    (n : GraphNode) :
    (k, n) ∈ extractedNodes shapes →
    ∃ shape ∈ shapes, shape.type = some ("diagram-node") ∧
      k = jsReplaceOnce shape.id ("shape:") ∧
      n = extractedNode shapes shape := by
  intro h
  unfold extractedNodes at h
  have key := List.foldlRecOn shapes
    (fun acc shape =>
      if shape.type == some ("diagram-node") then
        mapSet acc (jsReplaceOnce shape.id ("shape:")) (extractedNode shapes shape)
      else acc) []
    (motive := fun acc => ∀ q ∈ acc,
      ∃ shape ∈ shapes, shape.type = some ("diagram-node") ∧
        q.1 = jsReplaceOnce shape.id ("shape:") ∧
        q.2 = extractedNode shapes shape)
    (by simp) ?step
  · have hk := key (k, n) h
    simpa using hk
  case step =>
    intro acc hC a ha q hq
    by_cases hd : (a.type == some ("diagram-node")) = true
    · have hq' : q ∈ mapSet acc (jsReplaceOnce a.id ("shape:"))
          (extractedNode shapes a) := by
        simpa [hd] using hq
      rcases mem_mapSet _ _ _ q hq' with h1 | h1
      · exact hC q h1
      · refine ⟨a, ha, by simpa using hd, ?_, ?_⟩
        · rw [h1]
        · rw [h1]
    · have hq' : q ∈ acc := by simpa [hd] using hq
      exact hC q hq'

theorem extractedParentId_some (shapes : List TLRecord) (shape : TLRecord)
    (p : String) : extractedParentId shapes shape = some p →
    ∃ parentShape ∈ shapes, parentShape.type = some ("frame") ∧
      p = jsReplaceOnce parentShape.id ("shape:") := by
  intro h
  unfold extractedParentId at h
  rcases hpar : shape.parentId with _ | pr
  · rw [hpar] at h
    exact absurd h (by simp)
  · rw [hpar] at h
    dsimp only at h
    by_cases hc : (pr != "" && !(jsStartsWith pr ("page:"))) = true
    · rw [if_pos hc] at h
      rcases hfind : shapes.find? (fun q => q.id == pr) with _ | ps
      · rw [hfind] at h
        exact absurd h (by simp)
      · rw [hfind] at h
        dsimp only at h
        by_cases hty : (ps.type == some ("frame")) = true
        · rw [if_pos hty] at h
          have hmem := List.mem_of_find?_eq_some hfind
          have hid : ps.id = pr := by
            have := List.find?_some hfind
            simpa using this
          refine ⟨ps, hmem, by simpa using hty, ?_⟩
          have : p = jsReplaceOnce pr ("shape:") := by
            simpa using h.symm
          rw [this, hid]
        · rw [if_neg hty] at h
          exact absurd h (by simp)
    · rw [if_neg hc] at h
      exact absurd h (by simp)

/-- C4 counterexample: extracting the snapshot that holds a native tldraw
`frame` shape and a `diagram-node` shape nested inside it yields the node
`n1` with `parentId = f1`, but `f1` is not a key of the returned node map
at all — frame shapes are never extracted as nodes — so the parentId does
not refer to an existing frame-typed node of the returned GraphState. -/
theorem extract_parentId_not_in_node_map_cex :
    extractedN1.parentId = some ("f1") ∧
    mapGet (extractGraphFromSnapshot frameChildSnapshot).nodes ("n1") =
      some extractedN1 ∧
    mapHas (extractGraphFromSnapshot frameChildSnapshot).nodes ("f1") =
      false := by
  decide

/-- C4 amended: a node extracted by `extractGraphFromSnapshot` carries a
`parentId` only when the snapshot holds a shape record of tldraw type
`frame` whose stripped id is that parentId (so shapes nested under a page
root or a non-frame container receive none); but since only
`diagram-node` shapes are extracted into the node map, that parentId is
not a key of the returned node map (when stripped shape ids are distinct),
so the data-model invariant `parentId refers to an existing frame-typed
node of the returned map` does not hold. -/
theorem extracted_parentId_refers_to_frame_shape_not_node
    (records : List TLRecord) (k : String) (n : GraphNode) (p : String)
    (hmem : (k, n) ∈ (extractGraphFromSnapshot records).nodes)
    (hpar : n.parentId = some p)
    (hnd : ((records.filter (fun r => r.typeName == "shape")).map
      (fun r => jsReplaceOnce r.id ("shape:"))).Nodup) :
    (∃ rec ∈ records, rec.typeName = "shape" ∧ rec.type = some ("frame") ∧
      p = jsReplaceOnce rec.id ("shape:")) ∧
    mapHas (extractGraphFromSnapshot records).nodes p = false := by
  have hmem' : (k, n) ∈ extractedNodes
      (records.filter (fun r => r.typeName == "shape")) := hmem
  rcases mem_extractedNodes _ k n hmem' with ⟨shape, hsh, hty, hk, hn⟩
  have hpid : extractedParentId
      (records.filter (fun r => r.typeName == "shape")) shape = some p := by
    rw [← hpar, hn]
    rfl
  rcases extractedParentId_some _ shape p hpid with ⟨ps, hps, hpty, hpeq⟩
  have hps_rec := (List.mem_filter.1 hps).1
  have hps_shape : ps.typeName = "shape" := by
    have := (List.mem_filter.1 hps).2
    simpa using this
  refine ⟨⟨ps, hps_rec, hps_shape, hpty, hpeq⟩, ?_⟩
  by_contra hb
  have hb' : mapHas (extractGraphFromSnapshot records).nodes p = true :=
    eq_true_of_ne_false hb
  rcases (mapHas_true_iff _ p).1 hb' with ⟨n', hn'⟩
  have hn'' : (p, n') ∈ extractedNodes
      (records.filter (fun r => r.typeName == "shape")) := hn'
  rcases mem_extractedNodes _ p n' hn'' with ⟨dshape, hdsh, hdty, hdk, _⟩
  have heq : dshape = ps := by
    refine List.inj_on_of_nodup_map hnd hdsh hps ?_
    rw [← hdk, ← hpeq]
  rw [heq] at hdty
  rw [hpty] at hdty
  exact absurd (Option.some.injEq _ _ ▸ hdty) (by simp)

/-- Witness for C4 amended, at the frame/child snapshot. -/
theorem extracted_parentId_refers_to_frame_shape_not_node_w :
    (("n1", extractedN1) ∈
      (extractGraphFromSnapshot frameChildSnapshot).nodes) ∧
    ((∃ rec ∈ frameChildSnapshot, rec.typeName = "shape" ∧
        rec.type = some ("frame") ∧
        "f1" = jsReplaceOnce rec.id ("shape:")) ∧
      mapHas (extractGraphFromSnapshot frameChildSnapshot).nodes ("f1") =
        false) :=
  ⟨by decide,
    extracted_parentId_refers_to_frame_shape_not_node frameChildSnapshot
      "n1" extractedN1 "f1" (by decide) (by decide) (by decide)⟩

/-! ### C5 -/

theorem foldl_mapSet_fresh (l : List SerializedGraphNode) :
    ∀ acc : List (String × ServerGraphNode),
      (∀ q ∈ acc, ∀ x ∈ l, q.1 ≠ x.id) →
      (l.map (fun n => n.id)).Nodup →
      l.foldl (fun acc n => mapSet acc n.id (serverNodeOfWire n)) acc =
        acc ++ l.map (fun n => (n.id, serverNodeOfWire n)) := by
  induction l with
  | nil =>
    intro acc _ _
    simp
  | cons x rest ih =>
    intro acc hfresh hnd
    rw [List.map_cons] at hnd
    have hnd' := List.nodup_cons.1 hnd
    simp only [List.foldl_cons]
    have h1 : mapHas acc x.id = false :=
      (mapHas_false_iff acc x.id).2
        (fun q hq => hfresh q hq x (List.mem_cons_self x rest))
    rw [mapSet_of_not_has acc x.id _ h1]
    rw [ih (acc ++ [(x.id, serverNodeOfWire x)]) ?fresh hnd'.2]
    · simp
    case fresh =>
      intro q hq y hy
      rcases List.mem_append.1 hq with hq1 | hq1
      · exact hfresh q hq1 y (List.mem_cons_of_mem x hy)
      · have hqx : q = (x.id, serverNodeOfWire x) := by simpa using hq1
        rw [hqx]
        intro hcon
        have hcon' : x.id = y.id := hcon
        exact hnd'.1 (hcon' ▸ List.mem_map.2 ⟨y, hy, rfl⟩)

theorem mem_foldl_setAddEdge (l : List ServerGraphEdge) :
    ∀ (acc : List ServerGraphEdge) (q : ServerGraphEdge),
      q ∈ l.foldl setAddEdge acc ↔ q ∈ acc ∨ q ∈ l := by
  induction l with
  | nil =>
    intro acc q
    simp
  | cons e rest ih =>
    intro acc q
    simp only [List.foldl_cons]
    rw [ih]
    unfold setAddEdge
    by_cases hc : acc.contains e
    · rw [if_pos hc]
      have he : e ∈ acc := by simpa using hc
      constructor
      · rintro (h | h)
        · exact Or.inl h
        · exact Or.inr (List.mem_cons_of_mem e h)
      · rintro (h | h)
        · exact Or.inl h
        · rcases List.mem_cons.1 h with h1 | h1
          · exact Or.inl (h1 ▸ he)
          · exact Or.inr h1
    · rw [if_neg hc]
      constructor
      · rintro (h | h)
        · rcases List.mem_append.1 h with h1 | h1
          · exact Or.inl h1
          · exact Or.inr (List.mem_cons.2 (Or.inl (by simpa using h1)))
        · exact Or.inr (List.mem_cons_of_mem e h)
      · rintro (h | h)
        · exact Or.inl (List.mem_append.2 (Or.inl h))
        · rcases List.mem_cons.1 h with h1 | h1
          · exact Or.inl (List.mem_append.2 (Or.inr (by simp [h1])))
          · exact Or.inr h1

/-- C5 counterexample: two different client states — differing in a
node's `opacity` (a wire field) and in an edge's `id` (a wire field) —
serialize and deserialize to the same server state, so the round trip
cannot reproduce the same field values for every field named in the wire
format. -/
theorem sync_round_trip_drops_fields_cex :
    syncS1 ≠ syncS2 ∧
    (mapGet syncS1.nodes ("a")).map GraphNode.opacity ≠
      (mapGet syncS2.nodes ("a")).map GraphNode.opacity ∧
    (mapGet syncS1.edges ("e1")).isSome ≠ (mapGet syncS2.edges ("e1")).isSome ∧
    syncFrom (serializeGraphState syncS1) =
      syncFrom (serializeGraphState syncS2) := by
  decide

/-- C5 amended: for a well-formed client state (map keys equal to node
ids, keys distinct), the round trip client `serializeGraphState` followed
by server `syncFrom` reproduces every node under its id with every wire
field preserved EXCEPT `opacity`, which the server node model lacks, and
reproduces the edge set up to dropping the wire edge `id` (keeping
`sourceId`, `targetId` and `bidirectional`, with absent `bidirectional`
defaulting to false). -/
theorem sync_round_trip_spec (s : GraphState)
    (hids : ∀ q ∈ s.nodes, q.2.id = q.1)
    (hnd : (s.nodes.map Prod.fst).Nodup) :
    (syncFrom (serializeGraphState s)).nodes =
      s.nodes.map (fun q => (q.1, serverNodeOfGraph q.2)) ∧
    (∀ e', e' ∈ (syncFrom (serializeGraphState s)).edges ↔
      ∃ q ∈ s.edges, e' = serverEdgeOfGraph q.2) := by
  constructor
  · show (serializeGraphState s).nodes.foldl
        (fun acc n => mapSet acc n.id (serverNodeOfWire n)) [] = _
    unfold serializeGraphState
    rw [List.foldl_map]
    have hnd2 : ((s.nodes.map (fun q =>
        ({ id := q.2.id, label := q.2.label, description := q.2.description
           type := q.2.type, parentId := q.2.parentId, color := q.2.color
           position := q.2.position, relativeTo := q.2.relativeTo
           opacity := q.2.opacity } : SerializedGraphNode))).map
        (fun n => n.id)).Nodup := by
      rw [List.map_map]
      have : ∀ q ∈ s.nodes,
          ((fun (n : SerializedGraphNode) => n.id) ∘ (fun q =>
            ({ id := q.2.id, label := q.2.label
               description := q.2.description, type := q.2.type
               parentId := q.2.parentId, color := q.2.color
               position := q.2.position, relativeTo := q.2.relativeTo
               opacity := q.2.opacity } : SerializedGraphNode))) q =
          Prod.fst q := by
        intro q hq
        exact hids q hq
      rw [List.map_congr_left this]
      exact hnd
    have := foldl_mapSet_fresh (s.nodes.map (fun q =>
      ({ id := q.2.id, label := q.2.label, description := q.2.description
         type := q.2.type, parentId := q.2.parentId, color := q.2.color
         position := q.2.position, relativeTo := q.2.relativeTo
         opacity := q.2.opacity } : SerializedGraphNode))) []
      (by simp) hnd2
    rw [List.foldl_map] at this
    rw [this]
    rw [List.nil_append, List.map_map]
    refine List.map_congr_left ?_
    intro q hq
    have hqid := hids q hq
    simp [serverNodeOfWire, serverNodeOfGraph, hqid]
  · intro e'
    show e' ∈ (serializeGraphState s).edges.foldl
      (fun acc e => setAddEdge acc (serverEdgeOfWire e)) [] ↔ _
    rw [← List.foldl_map]
    rw [mem_foldl_setAddEdge]
    simp only [List.not_mem_nil, false_or]
    unfold serializeGraphState
    constructor
    · intro h
      rcases List.mem_map.1 h with ⟨w, hw, hwe⟩
      rcases List.mem_map.1 hw with ⟨q, hq, hqw⟩
      refine ⟨q, hq, ?_⟩
      rw [← hwe, ← hqw]
      rfl
    · rintro ⟨q, hq, hqe⟩
      refine List.mem_map.2
        ⟨{ id := q.2.id, sourceId := q.2.sourceId, targetId := q.2.targetId
           bidirectional := q.2.bidirectional }, List.mem_map.2 ⟨q, hq, rfl⟩, ?_⟩
      rw [hqe]
      rfl

/-- Witness for C5 amended, at `syncS1`. -/
theorem sync_round_trip_spec_w :
    (∀ q ∈ syncS1.nodes, q.2.id = q.1) ∧
    ((syncFrom (serializeGraphState syncS1)).nodes =
      syncS1.nodes.map (fun q => (q.1, serverNodeOfGraph q.2)) ∧
    (∀ e', e' ∈ (syncFrom (serializeGraphState syncS1)).edges ↔
      ∃ q ∈ syncS1.edges, e' = serverEdgeOfGraph q.2)) :=
  ⟨by decide, sync_round_trip_spec syncS1 (by decide) (by decide)⟩

/-! ### C10 -/

/-- C10: the hint-position computation is a deterministic function of the
position keyword, the reference bounding box, the node dimensions and the
fixed gap (`GAP = 50`): each of the eight keywords (with the `top`/`above`
and `bottom`/`below` aliases) maps to its one offset rule; an unrecognized
keyword falls through to the `right` rule; `above` relative to a resolved
node `n1` yields x = n1's horizontal center minus half the node's width
and y = n1's top edge minus the node's height minus the gap; and when
`relativeTo` does not resolve, the bounding box of the union of the
reference nodes — `layoutGraph` passes exactly the non-hint-positioned
nodes — is used instead. -/
theorem calculatePosition_spec
    (b : BoundingBox) (d : Dims) (g : ℚ) (kw : String)
    (hkw : jsToLower kw ∉ (["above", "top", "below", "bottom", "left",
      "right", "top-left", "top-right", "bottom-left",
      "bottom-right"] : List String))
    (nd : GraphNode) (ns : List LayoutNode) (n1 : LayoutNode) (r : String)
    (hrel : nd.relativeTo = some r) (hr : r ≠ "")
    (hfind : ns.find? (fun n => some n.id == nd.relativeTo) = some n1)
    (hpos : nd.position = some ("above"))
    (nd2 : GraphNode) (ns2 : List LayoutNode) (r2 : String)
    (hrel2 : nd2.relativeTo = some r2) (hr2 : r2 ≠ "")
    (hfind2 : ns2.find? (fun n => some n.id == nd2.relativeTo) = none)
    (hne2 : ns2 ≠ []) :
    GAP = 50 ∧
    (calculatePositionRelativeTo ("above") b d g =
        (b.centerX - d.width / 2, b.minY - d.height - g) ∧
      calculatePositionRelativeTo ("top") b d g =
        (b.centerX - d.width / 2, b.minY - d.height - g) ∧
      calculatePositionRelativeTo ("below") b d g =
        (b.centerX - d.width / 2, b.maxY + g) ∧
      calculatePositionRelativeTo ("bottom") b d g =
        (b.centerX - d.width / 2, b.maxY + g) ∧
      calculatePositionRelativeTo ("left") b d g =
        (b.minX - d.width - g, b.centerY - d.height / 2) ∧
      calculatePositionRelativeTo ("right") b d g =
        (b.maxX + g, b.centerY - d.height / 2) ∧
      calculatePositionRelativeTo ("top-left") b d g =
        (b.minX - d.width - g, b.minY - d.height - g) ∧
      calculatePositionRelativeTo ("top-right") b d g =
        (b.maxX + g, b.minY - d.height - g) ∧
      calculatePositionRelativeTo ("bottom-left") b d g =
        (b.minX - d.width - g, b.maxY + g) ∧
      calculatePositionRelativeTo ("bottom-right") b d g =
        (b.maxX + g, b.maxY + g)) ∧
    calculatePositionRelativeTo kw b d g =
      (b.maxX + g, b.centerY - d.height / 2) ∧
    calculatePosition nd ns d =
      (n1.x + n1.width / 2 - d.width / 2, n1.y - d.height - GAP) ∧
    calculatePosition nd2 ns2 d =
      calculatePositionRelativeTo (jsOrStr nd2.position ("right"))
        (getBoundingBoxForNodes ns2) d GAP := by
  refine ⟨rfl, ?_, ?_, ?_, ?_⟩
  · refine ⟨?_, ?_, ?_, ?_, ?_, ?_, ?_, ?_, ?_, ?_⟩
    · simp [calculatePositionRelativeTo,
        (by decide : jsToLower ("above") = "above")]
    · simp [calculatePositionRelativeTo,
        (by decide : jsToLower ("top") = "top")]
    · simp [calculatePositionRelativeTo,
        (by decide : jsToLower ("below") = "below")]
    · simp [calculatePositionRelativeTo,
        (by decide : jsToLower ("bottom") = "bottom")]
    · simp [calculatePositionRelativeTo,
        (by decide : jsToLower ("left") = "left")]
    · simp [calculatePositionRelativeTo,
        (by decide : jsToLower ("right") = "right")]
    · simp [calculatePositionRelativeTo,
        (by decide : jsToLower ("top-left") = "top-left")]
    · simp [calculatePositionRelativeTo,
        (by decide : jsToLower ("top-right") = "top-right")]
    · simp [calculatePositionRelativeTo,
        (by decide : jsToLower ("bottom-left") = "bottom-left")]
    · simp [calculatePositionRelativeTo,
        (by decide : jsToLower ("bottom-right") = "bottom-right")]
  · have h10 : jsToLower kw ≠ "above" ∧ jsToLower kw ≠ "top" ∧
        jsToLower kw ≠ "below" ∧ jsToLower kw ≠ "bottom" ∧
        jsToLower kw ≠ "left" ∧ jsToLower kw ≠ "right" ∧
        jsToLower kw ≠ "top-left" ∧ jsToLower kw ≠ "top-right" ∧
        jsToLower kw ≠ "bottom-left" ∧ jsToLower kw ≠ "bottom-right" := by
      simpa using hkw
    obtain ⟨h1, h2, h3, h4, h5, h6, h7, h8, h9, h10⟩ := h10
    simp [calculatePositionRelativeTo, h1, h2, h3, h4, h5, h6, h7, h8,
      h9, h10]
  · have ht : strTruthy nd.relativeTo = true := by
      rw [hrel]
      simp [strTruthy, hr]
    unfold calculatePosition
    rw [if_pos ht, hfind]
    dsimp only
    rw [hpos]
    have hj : jsOrStr (some ("above")) ("right") = "above" := by decide
    rw [hj]
    unfold calculateRelativePosition getBoundingBoxForNode
    simp [calculatePositionRelativeTo,
      (by decide : jsToLower ("above") = "above")]
  · have ht : strTruthy nd2.relativeTo = true := by
      rw [hrel2]
      simp [strTruthy, hr2]
    unfold calculatePosition
    rw [if_pos ht, hfind2]
    dsimp only
    unfold calculateCanvasPosition
    rw [if_neg (by simp [List.isEmpty_iff, hne2])]

/-- Witness for C10, at the box `bT`, text dimensions `dT`, gap 50, the
unrecognized keyword `diagonal`, the resolved node `n1LN` and the
unresolved reference `zz`. -/
theorem calculatePosition_spec_w :
    ([n1LN].find? (fun n => some n.id == textAbove.relativeTo) =
      some n1LN) ∧
    ([n1LN].find? (fun n => some n.id == textAboveUnresolved.relativeTo) =
      none) ∧
    (GAP = 50 ∧
    (calculatePositionRelativeTo ("above") bT dT 50 =
        (bT.centerX - dT.width / 2, bT.minY - dT.height - 50) ∧
      calculatePositionRelativeTo ("top") bT dT 50 =
        (bT.centerX - dT.width / 2, bT.minY - dT.height - 50) ∧
      calculatePositionRelativeTo ("below") bT dT 50 =
        (bT.centerX - dT.width / 2, bT.maxY + 50) ∧
      calculatePositionRelativeTo ("bottom") bT dT 50 =
        (bT.centerX - dT.width / 2, bT.maxY + 50) ∧
      calculatePositionRelativeTo ("left") bT dT 50 =
        (bT.minX - dT.width - 50, bT.centerY - dT.height / 2) ∧
      calculatePositionRelativeTo ("right") bT dT 50 =
        (bT.maxX + 50, bT.centerY - dT.height / 2) ∧
      calculatePositionRelativeTo ("top-left") bT dT 50 =
        (bT.minX - dT.width - 50, bT.minY - dT.height - 50) ∧
      calculatePositionRelativeTo ("top-right") bT dT 50 =
        (bT.maxX + 50, bT.minY - dT.height - 50) ∧
      calculatePositionRelativeTo ("bottom-left") bT dT 50 =
        (bT.minX - dT.width - 50, bT.maxY + 50) ∧
      calculatePositionRelativeTo ("bottom-right") bT dT 50 =
        (bT.maxX + 50, bT.maxY + 50)) ∧
    calculatePositionRelativeTo ("diagonal") bT dT 50 =
      (bT.maxX + 50, bT.centerY - dT.height / 2) ∧
    calculatePosition textAbove [n1LN] dT =
      (n1LN.x + n1LN.width / 2 - dT.width / 2,
        n1LN.y - dT.height - GAP) ∧
    calculatePosition textAboveUnresolved [n1LN] dT =
      calculatePositionRelativeTo
        (jsOrStr textAboveUnresolved.position ("right"))
        (getBoundingBoxForNodes [n1LN]) dT GAP) :=
  ⟨by decide, by decide,
    calculatePosition_spec bT dT 50 "diagonal" (by decide) textAbove [n1LN]
      n1LN "n1" (by decide) (by decide) (by decide) (by decide)
      textAboveUnresolved [n1LN] "zz" (by decide) (by decide) (by decide)
      (by decide)⟩

end VoiceBoard
